import Mathlib

/-!
Shallow embedding of the orchestration core of the pi-tube repository
(src/pi_tube/utils.py, config.py, audio.py, downloader.py, cli.py and
src/pi_tube/transcribe/) together with proofs about the claims of its
specification.  Effectful collaborators (the media tool, the downloader,
the two transcription backends and the filesystem) are passed in as
explicit data, exactly along the interfaces the Python code consumes.
-/

set_option maxHeartbeats 1000000

namespace PiTube

/-! ## Character classes (utils.py, regular-expression character sets) -/

/-- Python regular-expression class whitespace test on a character, by code point:
the set matched by a Python 3 unicode pattern for a whitespace class. -/
def isPySpace (c : Char) : Bool :=
  let n := c.toNat
  n == 32 || n == 9 || n == 10 || n == 11 || n == 12 || n == 13 ||
  n == 28 || n == 29 || n == 30 || n == 31 || n == 133 || n == 160 ||
  n == 5760 || decide (8192 ≤ n ∧ n ≤ 8202) || n == 8232 || n == 8233 ||
  n == 8239 || n == 8287 || n == 12288

/-- Test for an ASCII upper-case letter (regex range A-Z). -/
def isAsciiUpper (c : Char) : Bool := decide (65 ≤ c.toNat ∧ c.toNat ≤ 90)

/-- Test for an ASCII lower-case letter (regex range a-z). -/
def isAsciiLower (c : Char) : Bool := decide (97 ≤ c.toNat ∧ c.toNat ≤ 122)

/-- Test for an ASCII digit (regex range 0-9). -/
def isAsciiDigit (c : Char) : Bool := decide (48 ≤ c.toNat ∧ c.toNat ≤ 57)

/-- Test for an ASCII alphanumeric character. -/
def isAsciiAlnum (c : Char) : Bool := isAsciiUpper c || isAsciiLower c || isAsciiDigit c

/-- Characters kept by the first substitution of slugify: the complement of the
pattern that removes every character that is not an ASCII letter, digit,
whitespace or hyphen. -/
def keepChar (c : Char) : Bool := isAsciiAlnum c || isPySpace c || decide (c = '-')

/-- Characters replaced by the second substitution of slugify: whitespace or
underscore. -/
def spaceOrUnd (c : Char) : Bool := isPySpace c || decide (c = '_')

/-- Hyphen test, the class of the third substitution of slugify. -/
def hyChar (c : Char) : Bool := decide (c = '-')

/-! ## Model of the regex substitutions used by slugify -/

/-- Replace every maximal run of characters satisfying p by the single
character r; the Boolean argument records whether the previous character was
inside such a run.  This is the behaviour of substituting one-or-more-of-p by
r in a regex substitution. -/
def subRunsAux (p : Char → Bool) (r : Char) : Bool → List Char → List Char
  | _, [] => []
  | inRun, c :: cs =>
    if p c then
      if inRun then subRunsAux p r true cs else r :: subRunsAux p r true cs
    else c :: subRunsAux p r false cs

/-- Regex substitution of maximal runs of p by the single character r. -/
def subRuns (p : Char → Bool) (r : Char) (l : List Char) : List Char :=
  subRunsAux p r false l

/-- Drop the trailing run of the character r (the right half of a Python
strip with argument r). -/
def dropTrailing (r : Char) : List Char → List Char
  | [] => []
  | c :: rest =>
    match dropTrailing r rest with
    | [] => if c = r then [] else [c]
    | d :: ds => c :: d :: ds

/-- Python strip with the single strip character r: remove the leading and the
trailing run of r. -/
def stripEnds (r : Char) (l : List Char) : List Char :=
  dropTrailing r (l.dropWhile (fun c => decide (c = r)))

/-- Python lower() restricted to its effect on the characters that can reach
the final step of slugify (ASCII letters, digits and hyphen; the earlier
substitutions have removed everything else).  On an ASCII upper-case letter it
adds 32 to the code point, on anything else it is the identity. -/
def pyLower (c : Char) : Char :=
  if isAsciiUpper c then Char.ofNat (c.toNat + 32) else c

/-- Embedding of slugify from src/pi_tube/utils.py on a list of characters:
remove every character that is not an ASCII letter, digit, whitespace or
hyphen; replace runs of whitespace or underscore by a hyphen; collapse runs of
hyphens; strip hyphens at both ends; lower-case the result. -/
def slugifyL (l : List Char) : List Char :=
  (stripEnds '-' (subRuns hyChar '-' (subRuns spaceOrUnd '-' (l.filter keepChar)))).map pyLower

/-- Embedding of slugify from src/pi_tube/utils.py. -/
def slugify (s : String) : String := (slugifyL s.toList).asString

/-! ## The shape predicate of the specification's slug regular expression -/

/-- Test for a lower-case ASCII alphanumeric character. -/
def isLowerAlnum (c : Char) : Bool := isAsciiLower c || isAsciiDigit c

/-- Matcher for the anchored regular expression of lower-case alphanumeric
segments separated by single hyphens, written as a two-state automaton: the
Boolean state records whether an alphanumeric character is still required
before the next hyphen or the end. -/
def matchSlugAux : Bool → List Char → Bool
  | expecting, [] => !expecting
  | expecting, c :: rest =>
    if isLowerAlnum c then matchSlugAux false rest
    else if c = '-' then (if expecting then false else matchSlugAux true rest)
    else false

/-- Whole-string matcher for the slug regular expression of the specification. -/
def matchSlugStr (s : String) : Bool := matchSlugAux true s.toList

/-- Test whether a string contains at least one ASCII alphanumeric character. -/
def hasAsciiAlnum (s : String) : Bool := s.toList.any isAsciiAlnum

/-! ## Invariant predicates used in the proofs about slugify -/

/-- Characters that can occur in a slug before lower-casing. -/
def slugCharA (c : Char) : Bool := isAsciiAlnum c || decide (c = '-')

/-- Characters that can occur in a finished slug. -/
def lowerSlugChar (c : Char) : Bool := isLowerAlnum c || decide (c = '-')

/-- The head of the list, if any, is not a hyphen. -/
def headNotHy : List Char → Bool
  | [] => true
  | c :: _ => !decide (c = '-')

/-- The last element of the list, if any, is not a hyphen. -/
def lastNotHy : List Char → Bool
  | [] => true
  | [c] => !decide (c = '-')
  | _ :: c :: rest => lastNotHy (c :: rest)

/-- No two adjacent elements are both hyphens. -/
def noAdjHy : List Char → Bool
  | c :: d :: rest => (!(decide (c = '-') && decide (d = '-'))) && noAdjHy (d :: rest)
  | _ => true

/-! ## config.py -/

/-- Python exceptions and error exits observable in the orchestration core. -/
inductive PyExn where
  | attributeError (attr : String)
  | fileNotFoundError (path : String)
  | valueError (msg : String)
  | typerExit (code : Nat)
  | otherError (msg : String)
deriving DecidableEq

/-- Config.SUPPORTED_VIDEO_FORMATS from src/pi_tube/config.py. -/
def SUPPORTED_VIDEO_FORMATS : List String := [".mp4", ".mkv", ".avi", ".mov", ".webm", ".flv"]

/-- Config.SUPPORTED_AUDIO_FORMATS from src/pi_tube/config.py. -/
def SUPPORTED_AUDIO_FORMATS : List String := [".mp3", ".wav", ".m4a", ".ogg", ".flac", ".aac"]

/-- Config.AUDIO_SAMPLE_RATE from src/pi_tube/config.py. -/
def AUDIO_SAMPLE_RATE : Nat := 16000

/-- Config.AUDIO_CHANNELS from src/pi_tube/config.py. -/
def AUDIO_CHANNELS : Nat := 1

/-- Config.DEFAULT_OUTPUT_DIR from src/pi_tube/config.py (a fixed directory;
its concrete location is irrelevant to the claims). -/
def DEFAULT_OUTPUT_DIR : String := "output"

/-- The attribute names defined on the Config class in src/pi_tube/config.py:
five constants, two format sets and the two classmethods get_supported_formats
and ensure_temp_dir.  No ensure_output_dir is defined anywhere in the class. -/
def configClassAttrs : List String :=
  ["DEEPGRAM_API_KEY", "GROQ_API_KEY", "DEFAULT_OUTPUT_DIR", "DEFAULT_TEMP_DIR",
   "AUDIO_SAMPLE_RATE", "AUDIO_CHANNELS", "AUDIO_FORMAT",
   "SUPPORTED_VIDEO_FORMATS", "SUPPORTED_AUDIO_FORMATS",
   "get_supported_formats", "ensure_temp_dir"]

/-- Python attribute access for the call Config.ensure_output_dir() made by
src/pi_tube/cli.py: looking up a name that the class does not define raises
AttributeError.  The success branch (unreachable, since the attribute is
absent from configClassAttrs) would return the configured output directory. -/
def ensure_output_dir : Except PyExn String :=
  if configClassAttrs.contains "ensure_output_dir" then Except.ok DEFAULT_OUTPUT_DIR
  else Except.error (PyExn.attributeError "ensure_output_dir")

/-- First-match lookup in an association list of environment entries. -/
def lookupKey (k : String) : List (String × String) → Option String
  | [] => none
  | (k', v) :: rest => if k' = k then some v else lookupKey k rest

/-- Prefix test on strings via the underlying character lists. -/
def strStartsWith (s p : String) : Bool := p.toList.isPrefixOf s.toList

/-- Suffix test on strings via the underlying character lists. -/
def strEndsWith (s suf : String) : Bool := suf.toList.isSuffixOf s.toList

/-- Parse one line of the persisted config file as src/pi_tube/config.py does:
a line that contains an equals sign and does not start with a hash yields the
part before the first equals sign as key and the rest as value. -/
def parseConfigLine (line : String) : Option (String × String) :=
  if line.toList.contains '=' && !(strStartsWith line "#") then
    some ((line.toList.takeWhile (fun c => decide (c ≠ '='))).asString,
          ((line.toList.dropWhile (fun c => decide (c ≠ '='))).drop 1).asString)
  else none

/-- The module-level loop of src/pi_tube/config.py: each parseable config-file
line is written into the process environment only when its key is not already
present there (the code explicitly does not override environment variables). -/
def mergeConfigFile : List (String × String) → List String → List (String × String)
  | env, [] => env
  | env, line :: rest =>
    match parseConfigLine line with
    | some (k, v) =>
      if (lookupKey k env).isSome then mergeConfigFile env rest
      else mergeConfigFile (env ++ [(k, v)]) rest
    | none => mergeConfigFile env rest

/-- The value the first parseable config-file line with key k assigns, if any;
used to describe the merged environment when k was absent from it. -/
def firstFileValue (k : String) : List String → Option String
  | [] => none
  | line :: rest =>
    match parseConfigLine line with
    | some (k', v) => if k' = k then some v else firstFileValue k rest
    | none => firstFileValue k rest

/-- Python truthiness-based or on an optional string against a string default,
as in the expression api_key or Config.GROQ_API_KEY. -/
def pyOr (a : Option String) (b : String) : String :=
  match a with
  | some s => if s = "" then b else s
  | none => b

/-- The value os.getenv returns for key k after config.py merged the persisted
config file into the environment, with empty-string default: this is what the
Config class attributes DEEPGRAM_API_KEY and GROQ_API_KEY hold. -/
def configEnvValue (env : List (String × String)) (lines : List String) (k : String) : String :=
  (lookupKey k (mergeConfigFile env lines)).getD ""

/-- The api_key a provider constructor resolves: the explicit override when it
is truthy, else the Config class attribute for key k. -/
def providerApiKey (override : Option String) (env : List (String × String))
    (lines : List String) (k : String) : String :=
  pyOr override (configEnvValue env lines k)

/-- Provider is_configured: Python truthiness of the resolved api_key string. -/
def is_configured (apiKey : String) : Bool := decide (apiKey ≠ "")

/-! ## Paths (pathlib suffix and stem as used by audio.py and cli.py) -/

/-- The final path component, as a character list. -/
def basenameChars (p : String) : List Char :=
  (p.toList.reverse.takeWhile (fun c => decide (c ≠ '/'))).reverse

/-- Index of the dot that separates stem from suffix in a file name: the last
dot, provided it is neither the first nor the last character of the name. -/
def dotSplitIndex (name : List Char) : Option Nat :=
  let tailLen := (name.reverse.takeWhile (fun c => decide (c ≠ '.'))).length
  if tailLen = name.length then none
  else
    let i := name.length - 1 - tailLen
    if 0 < i ∧ i < name.length - 1 then some i else none

/-- Path suffix (extension including the dot, possibly empty). -/
def suffixOf (p : String) : String :=
  match dotSplitIndex (basenameChars p) with
  | some i => ((basenameChars p).drop i).asString
  | none => ""

/-- Path stem (final component without its suffix). -/
def stemOf (p : String) : String :=
  match dotSplitIndex (basenameChars p) with
  | some i => ((basenameChars p).take i).asString
  | none => (basenameChars p).asString

/-- Lower-casing of a string, as applied to path suffixes. -/
def lowerStr (s : String) : String := (s.toList.map pyLower).asString

/-! ## audio.py -/

/-- The fields of the first audio stream that needs_conversion reads from a
metadata probe; a missing field reads as zero in the code. -/
structure AudioStreamData where
  sample_rate : Option Nat
  channels : Option Nat
deriving DecidableEq

/-- is_audio_file from src/pi_tube/audio.py. -/
def is_audio_file (path : String) : Bool :=
  SUPPORTED_AUDIO_FORMATS.contains (lowerStr (suffixOf path))

/-- is_video_file from src/pi_tube/audio.py. -/
def is_video_file (path : String) : Bool :=
  SUPPORTED_VIDEO_FORMATS.contains (lowerStr (suffixOf path))

/-- needs_conversion from src/pi_tube/audio.py.  The probe argument is the
result of get_audio_info: none when probing failed or yielded no audio stream
(the empty falsy dictionary), otherwise the first audio stream's data. -/
def needs_conversion (path : String) (probe : Option AudioStreamData) : Bool :=
  if is_video_file path then true
  else if lowerStr (suffixOf path) ≠ ".wav" then true
  else
    match probe with
    | none => true
    | some info =>
      decide (info.sample_rate.getD 0 ≠ AUDIO_SAMPLE_RATE) ||
      decide (info.channels.getD 0 ≠ AUDIO_CHANNELS)

/-! ## transcribe/base.py -/

/-- TranscriptionResult from src/pi_tube/transcribe/base.py (the numeric
duration and confidence fields are opaque to every claim and carried only as
optional data). -/
structure TranscriptionResult where
  text : String
  duration : Option Nat
  language : Option String
  confidence : Option Nat
  provider : Option String
deriving DecidableEq

/-! ## transcribe/groq.py -/

/-- The request src/pi_tube/transcribe/groq.py sends to the backend: model,
language and response format.  The language parameter is always present, set
to the expression of the source (language or a fixed default). -/
structure GroqRequest where
  model : String
  language : String
  response_format : String
deriving DecidableEq

/-- Construction of the Groq backend request from the optional language
argument of transcribe. -/
def mkGroqRequest (language : Option String) : GroqRequest :=
  { model := "whisper-large-v3-turbo",
    language := pyOr language "pt",
    response_format := "verbose_json" }

/-- The backend reply fields the Groq provider reads. -/
structure GroqResponse where
  text : String
  duration : Option Nat
  language : Option String

/-- The language the Groq provider reports: the backend's language attribute
when present, else the language that was passed in. -/
def groqReportedLanguage (respLanguage : Option String) (language : Option String) :
    Option String :=
  match respLanguage with
  | some l => some l
  | none => language

/-- Observable outcome of one provider transcribe call: how many network calls
were made to the backend, and the result or raised exception. -/
structure ProviderCallLog where
  networkCalls : Nat
  result : Except PyExn TranscriptionResult

/-- GroqProvider.transcribe from src/pi_tube/transcribe/groq.py, with the
filesystem existence of the audio path and the backend passed in explicitly:
a missing file raises FileNotFoundError before any network call; otherwise
exactly one backend call is made and its reply is mapped to the result. -/
def groq_transcribe (fileExists : Bool) (audioPath : String) (language : Option String)
    (backend : GroqRequest → Except PyExn GroqResponse) : ProviderCallLog :=
  if !fileExists then ⟨0, Except.error (PyExn.fileNotFoundError audioPath)⟩
  else
    match backend (mkGroqRequest language) with
    | Except.error e => ⟨1, Except.error e⟩
    | Except.ok resp =>
      ⟨1, Except.ok
        { text := resp.text, duration := resp.duration,
          language := groqReportedLanguage resp.language language,
          confidence := none, provider := some "groq" }⟩

/-! ## transcribe/deepgram.py -/

/-- Python truthiness of an optional string. -/
def pyTruthy : Option String → Bool
  | some s => decide (s ≠ "")
  | none => false

/-- The option set src/pi_tube/transcribe/deepgram.py sends: a language key is
present only when a truthy language was given, otherwise language detection is
requested. -/
structure DeepgramOptions where
  model : String
  smart_format : Bool
  punctuate : Bool
  paragraphs : Bool
  diarize : Bool
  summarize : String
  language : Option String
  detect_language : Bool
deriving DecidableEq

/-- Construction of the Deepgram option set from the optional language
argument of transcribe. -/
def mkDeepgramOptions (language : Option String) : DeepgramOptions :=
  { model := "nova-3", smart_format := true, punctuate := true, paragraphs := true,
    diarize := true, summarize := "v2",
    language := if pyTruthy language then language else none,
    detect_language := !pyTruthy language }

/-- The reply fields the Deepgram provider turns into its result.  The
formatted transcript text (summary block and speaker paragraphs, assembled in
the source) is carried as one string; its assembly is a formatting concern no
claim depends on. -/
structure DeepgramResponse where
  finalText : String
  confidence : Option Nat
  detected_language : Option String

/-- The four classification branches of the except-handler of
DeepgramProvider.transcribe, keyed on the backend status code. -/
inductive DeepgramApiFailure where
  | invalidApiKey
  | rateLimitExceeded
  | serverError (status : Nat)
  | apiError (body : String)
deriving DecidableEq

/-- Classification of a backend ApiError by status code, exactly as the
except-handler of src/pi_tube/transcribe/deepgram.py branches. -/
def handleApiError (status : Nat) (body : String) : DeepgramApiFailure :=
  if status = 401 then DeepgramApiFailure.invalidApiKey
  else if status = 429 then DeepgramApiFailure.rateLimitExceeded
  else if 500 ≤ status then DeepgramApiFailure.serverError status
  else DeepgramApiFailure.apiError body

/-- The message of the exception each classification branch raises. -/
def deepgramErrorMessage : DeepgramApiFailure → String
  | DeepgramApiFailure.invalidApiKey => "Invalid Deepgram API key. Check your configuration."
  | DeepgramApiFailure.rateLimitExceeded => "Rate limit exceeded. Please try again later."
  | DeepgramApiFailure.serverError status =>
      "Deepgram server error. Please try again. (Status " ++ toString status ++ ")"
  | DeepgramApiFailure.apiError body => "Deepgram API error: " ++ body

/-- The language the Deepgram provider reports: the passed language or the
auto marker, overridden by a truthy detected language of the reply. -/
def deepgramReportedLanguage (detected : Option String) (language : Option String) : String :=
  let base := pyOr language "auto"
  match detected with
  | some d => if d = "" then base else d
  | none => base

/-- A backend ApiError as raised by the Deepgram SDK: status code and body. -/
structure DeepgramBackendError where
  status_code : Nat
  body : String

/-- DeepgramProvider.transcribe from src/pi_tube/transcribe/deepgram.py, with
the filesystem existence of the audio path and the backend passed in
explicitly: a missing file raises FileNotFoundError before any network call;
otherwise exactly one backend call is made, an ApiError reply is classified by
status into one of four distinct errors and raised without any retry, and a
successful reply is mapped to the result. -/
def deepgram_transcribe (fileExists : Bool) (audioPath : String) (language : Option String)
    (backend : DeepgramOptions → Except DeepgramBackendError DeepgramResponse) :
    ProviderCallLog :=
  if !fileExists then ⟨0, Except.error (PyExn.fileNotFoundError audioPath)⟩
  else
    match backend (mkDeepgramOptions language) with
    | Except.error e =>
      ⟨1, Except.error (PyExn.valueError
        (deepgramErrorMessage (handleApiError e.status_code e.body)))⟩
    | Except.ok resp =>
      ⟨1, Except.ok
        { text := resp.finalText, duration := none,
          language := some (deepgramReportedLanguage resp.detected_language language),
          confidence := resp.confidence, provider := some "deepgram" }⟩

/-! ## cli.py orchestrator -/

/-- Terminal states of one run of the transcription command: the skip-existing
success, a saved transcript, or a caught exception mapped to exit code 1. -/
inductive Outcome where
  | skippedExisting (path : String)
  | saved (outputPath : String) (text : String)
  | failed (e : PyExn)
deriving DecidableEq

/-- Whether the outcome is the non-zero-exit failure state. -/
def Outcome.isFailed : Outcome → Bool
  | Outcome.failed _ => true
  | _ => false

/-- Result of a run together with whether download_audio was ever invoked. -/
structure RunResult where
  outcome : Outcome
  downloadInvoked : Bool
deriving DecidableEq

/-- The collaborator behaviour one run observes: configuration state, the
metadata probe's title field, the output directory listing, the outcomes of
download_audio, of extract_audio and of the provider transcribe call, the
local input file's existence and probe data, and the current date string. -/
structure World where
  isConfigured : Bool
  videoInfoTitle : Except PyExn (Option String)
  outputDirFiles : List String
  downloadAudio : Except PyExn String
  localPath : String
  localExists : Bool
  localProbe : Option AudioStreamData
  extractAudio : Except PyExn String
  transcribe : Except PyExn TranscriptionResult
  today : String

/-- The glob for files matching any date prefix followed by the slug, as the
smart check of cli.py performs it over the output directory (a glob whose
pattern starts with a star skips dot-files). -/
def globExisting (files : List String) (slug : String) : List String :=
  files.filter (fun f => !strStartsWith f "." && strEndsWith f ("-" ++ slug ++ ".md"))

/-- The output-path computation of cli.py after transcription: a caller-given
path is used verbatim; otherwise the date-prefixed slug of the audio file's
stem inside the directory Config.ensure_output_dir() would return. -/
def resolveOutput (audioPath today : String) (o : Option String) : Except PyExn String :=
  match o with
  | some out => Except.ok out
  | none =>
    match ensure_output_dir with
    | Except.error e => Except.error e
    | Except.ok dir =>
      Except.ok (dir ++ "/" ++ today ++ "-" ++ slugify (stemOf audioPath) ++ ".md")

/-- The tail of the orchestrator shared by both branches: invoke the provider,
resolve the output path, persist.  Any raised exception becomes the failure
outcome. -/
def finishTranscription (w : World) (audioPath : String) (o : Option String)
    (dl : Bool) : RunResult :=
  match w.transcribe with
  | Except.error e => ⟨Outcome.failed e, dl⟩
  | Except.ok result =>
    match resolveOutput audioPath w.today o with
    | Except.error e => ⟨Outcome.failed e, dl⟩
    | Except.ok out => ⟨Outcome.saved out result.text, dl⟩

/-- Download then finish, for the remote branch: a downloader failure becomes
the failure outcome; in either case the downloader was invoked. -/
def remoteDownloadAndFinish (w : World) (o : Option String) : RunResult :=
  match w.downloadAudio with
  | Except.error e => ⟨Outcome.failed e, true⟩
  | Except.ok audioPath => finishTranscription w audioPath o true

/-- The remote (recognized URL) branch of _transcribe_with_provider in
src/pi_tube/cli.py: with no explicit output, probe the title, slugify it,
call Config.ensure_output_dir() and look for an existing transcript before
downloading; with an explicit output, download immediately. -/
def runRemote (w : World) (o : Option String) : RunResult :=
  match o with
  | some out => remoteDownloadAndFinish w (some out)
  | none =>
    match w.videoInfoTitle with
    | Except.error e => ⟨Outcome.failed e, false⟩
    | Except.ok titleOpt =>
      let slug_name := slugify (titleOpt.getD "video")
      match ensure_output_dir with
      | Except.error e => ⟨Outcome.failed e, false⟩
      | Except.ok _ =>
        match globExisting w.outputDirFiles slug_name with
        | f :: _ => ⟨Outcome.skippedExisting f, false⟩
        | [] => remoteDownloadAndFinish w none

/-- The local-file branch of _transcribe_with_provider in src/pi_tube/cli.py:
existence check, extension check, conversion when needed, then transcribe and
persist.  The post-save removal of a temporary audio file does not affect the
persisted transcript or the exit status of any claim and is not tracked. -/
def runLocal (w : World) (o : Option String) : RunResult :=
  if !w.localExists then ⟨Outcome.failed (PyExn.fileNotFoundError w.localPath), false⟩
  else if !(is_audio_file w.localPath || is_video_file w.localPath) then
    ⟨Outcome.failed (PyExn.typerExit 1), false⟩
  else if needs_conversion w.localPath w.localProbe then
    match w.extractAudio with
    | Except.error e => ⟨Outcome.failed e, false⟩
    | Except.ok audioPath => finishTranscription w audioPath o false
  else finishTranscription w w.localPath o false

/-- The two classifications of the input source (the outcome of
is_youtube_url in src/pi_tube/downloader.py, on which cli.py branches). -/
inductive SourceKind where
  | remote
  | localFile

/-- _transcribe_with_provider from src/pi_tube/cli.py: the configuration
check, then the remote or local branch. -/
def transcribeWithProvider (k : SourceKind) (w : World) (o : Option String) : RunResult :=
  if !w.isConfigured then ⟨Outcome.failed (PyExn.typerExit 1), false⟩
  else
    match k with
    | SourceKind.remote => runRemote w o
    | SourceKind.localFile => runLocal w o

/-! ## Concrete worlds used as failing inputs -/

/-- A remote run whose video title's slug already has a matching transcript in
the output directory: the scenario of the skip-existing optimization. -/
def worldRemoteExisting : World :=
  { isConfigured := true,
    videoInfoTitle := Except.ok (some "My Video"),
    outputDirFiles := ["2024-05-01-my-video.md"],
    downloadAudio := Except.ok "/tmp/pi-tube/My Video.mp3",
    localPath := "",
    localExists := false,
    localProbe := none,
    extractAudio := Except.error (PyExn.otherError "unused"),
    transcribe := Except.ok
      { text := "hello", duration := none, language := none,
        confidence := none, provider := some "groq" },
    today := "2026-10-12" }

/-- A local run on an already-conformant WAV file whose transcription
succeeds: the scenario in which the default output path would be computed. -/
def worldLocalWav : World :=
  { isConfigured := true,
    videoInfoTitle := Except.error (PyExn.otherError "unused"),
    outputDirFiles := [],
    downloadAudio := Except.error (PyExn.otherError "unused"),
    localPath := "talk.wav",
    localExists := true,
    localProbe := some { sample_rate := some 16000, channels := some 1 },
    extractAudio := Except.error (PyExn.otherError "unused"),
    transcribe := Except.ok
      { text := "abc", duration := none, language := none,
        confidence := none, provider := some "groq" },
    today := "2026-10-12" }

/-! ## Helper lemmas about the orchestrator -/

/-- With no explicit output the output-path computation always raises the
AttributeError of the missing Config.ensure_output_dir. -/
theorem resolveOutput_none (a t : String) :
    resolveOutput a t none = Except.error (PyExn.attributeError "ensure_output_dir") := rfl

/-- Every run that reaches the persistence step without an explicit output
path ends in the failure outcome. -/
theorem finishTranscription_none_isFailed (w : World) (a : String) (d : Bool) :
    ((finishTranscription w a none d).outcome).isFailed = true := by
  unfold finishTranscription
  cases w.transcribe with
  | error e => rfl
  | ok r => rw [resolveOutput_none]; rfl

/-- The remote branch with no explicit output always fails. -/
theorem runRemote_none_isFailed (w : World) :
    ((runRemote w none).outcome).isFailed = true := by
  unfold runRemote
  cases w.videoInfoTitle with
  | error e => rfl
  | ok t => rfl

/-- The local branch with no explicit output always fails. -/
theorem runLocal_none_isFailed (w : World) :
    ((runLocal w none).outcome).isFailed = true := by
  unfold runLocal
  split
  · rfl
  · split
    · rfl
    · split
      · cases w.extractAudio with
        | error e => rfl
        | ok p => exact finishTranscription_none_isFailed w p false
      · exact finishTranscription_none_isFailed w w.localPath false

/-! ## Claims C1, C2, C3 -/

/-- C1: for a remote input with no explicit output path, the orchestrator is
claimed to probe the title, slugify it, find the matching existing transcript
and stop in the successful SkippedExisting state without downloading.  On the
code, in exactly that scenario (configured provider, title probed, a matching
file present in the output directory), the run instead ends in the failure
outcome with the AttributeError raised by the missing Config.ensure_output_dir
before the directory is ever searched; the downloader is indeed never
invoked, but the terminal state is a non-zero-exit failure, not a success. -/
theorem C1_skip_existing_crashes_before_glob :
    transcribeWithProvider SourceKind.remote worldRemoteExisting none =
      ⟨Outcome.failed (PyExn.attributeError "ensure_output_dir"), false⟩ ∧
    globExisting worldRemoteExisting.outputDirFiles (slugify "My Video") =
      ["2024-05-01-my-video.md"] := by
  constructor <;> decide

/-- C2: the Config class defines no ensure_output_dir attribute, so the call
Config.ensure_output_dir() raises AttributeError, and every transcription run
with no explicit output path — remote or local, whatever the collaborators
do — ends in the failure (non-zero exit) outcome. -/
theorem C2_default_output_always_fails :
    ensure_output_dir = Except.error (PyExn.attributeError "ensure_output_dir") ∧
    ∀ (k : SourceKind) (w : World),
      ((transcribeWithProvider k w none).outcome).isFailed = true := by
  refine ⟨rfl, ?_⟩
  intro k w
  unfold transcribeWithProvider
  split
  · rfl
  · cases k with
    | remote => exact runRemote_none_isFailed w
    | localFile => exact runLocal_none_isFailed w

/-- C3: with no explicit output path the transcript is claimed to be persisted
at the date-prefixed slug path.  On the code, a local run on an already
conformant WAV file whose transcription succeeds ends in the failure outcome
with the AttributeError of the missing Config.ensure_output_dir, and nothing
is persisted; with an explicit output path the same run saves the transcript
at that path verbatim. -/
theorem C3_default_path_never_persisted :
    transcribeWithProvider SourceKind.localFile worldLocalWav none =
      ⟨Outcome.failed (PyExn.attributeError "ensure_output_dir"), false⟩ ∧
    transcribeWithProvider SourceKind.localFile worldLocalWav (some "given.md") =
      ⟨Outcome.saved "given.md" "abc", false⟩ := by
  constructor <;> decide

/-! ## Claim C5 -/

/-- C5 counterexample: slugify of the spec's example input yields
"my-video-title2024", not the claimed "my-video-title-2024": the underscore is
removed by the first substitution (it is not an ASCII letter, digit,
whitespace or hyphen) before the whitespace-collapsing step runs, so it does
not become a hyphen. -/
theorem C5_example_counterexample :
    slugify "My Video! Title_2024" = "my-video-title2024" ∧
    slugify "My Video! Title_2024" ≠ "my-video-title-2024" := by
  constructor <;> decide

/-- C5 amended: slugify("My Video! Title_2024") returns "my-video-title2024";
underscores are stripped together with the other special characters before
whitespace runs are collapsed, so they vanish instead of becoming hyphens. -/
theorem C5_example_amended :
    slugify "My Video! Title_2024" = "my-video-title2024" := by decide

/-! ## Claim C7 -/

/-- C7 counterexample: with an absent language the Groq provider's backend
request carries the fixed language "pt" rather than a request for
auto-detection (the request has no detection field at all; its language
parameter is always populated). -/
theorem C7_groq_defaults_to_pt :
    (mkGroqRequest none).language = "pt" ∧ (mkGroqRequest none).language ≠ "auto" := by
  constructor <;> decide

/-- C7 amended: a given non-empty language is passed through verbatim by both
providers; with an absent language the Deepgram provider requests language
detection and reports the detected language (or "auto" when nothing is
detected), while the Groq provider defaults the request to the fixed language
"pt" and reports the backend's language field, falling back to the passed
language rather than to "auto". -/
theorem C7_language_handling :
    (∀ s : String, s ≠ "" → (mkGroqRequest (some s)).language = s) ∧
    (mkGroqRequest none).language = "pt" ∧
    (∀ s : String, s ≠ "" → (mkDeepgramOptions (some s)).language = some s ∧
      (mkDeepgramOptions (some s)).detect_language = false) ∧
    ((mkDeepgramOptions none).language = none ∧
      (mkDeepgramOptions none).detect_language = true) ∧
    deepgramReportedLanguage none none = "auto" ∧
    (∀ d : String, d ≠ "" → ∀ lang, deepgramReportedLanguage (some d) lang = d) ∧
    (∀ lang, groqReportedLanguage none lang = lang) := by
  refine ⟨?_, rfl, ?_, ⟨rfl, rfl⟩, rfl, ?_, fun lang => rfl⟩
  · intro s h
    simp [mkGroqRequest, pyOr, h]
  · intro s h
    constructor <;> simp [mkDeepgramOptions, pyTruthy, h]
  · intro d h lang
    simp [deepgramReportedLanguage, h]

/-- C7 witness. -/
theorem C7_language_handling_witness :
    (mkGroqRequest (some "en")).language = "en" ∧
    (mkDeepgramOptions (some "en")).language = some "en" ∧
    deepgramReportedLanguage (some "fr") none = "fr" :=
  ⟨C7_language_handling.1 "en" (by decide),
   (C7_language_handling.2.2.1 "en" (by decide)).1,
   C7_language_handling.2.2.2.2.2.1 "fr" (by decide) none⟩

/-! ## Claim C8 -/

/-- C8: needs_conversion is false for a file whose lowered extension is .wav
and whose probe reports exactly 16000 Hz and 1 channel; true for the same
file reporting 44100 Hz and 2 channels; true unconditionally for any file
with a video-list extension; and true whenever the probe failed or yielded
no audio stream. -/
theorem C8_needs_conversion_cases :
    (∀ (path : String) (info : AudioStreamData),
      lowerStr (suffixOf path) = ".wav" → info.sample_rate = some 16000 →
      info.channels = some 1 → needs_conversion path (some info) = false) ∧
    (∀ (path : String) (info : AudioStreamData),
      lowerStr (suffixOf path) = ".wav" → info.sample_rate = some 44100 →
      info.channels = some 2 → needs_conversion path (some info) = true) ∧
    (∀ (path : String) (probe : Option AudioStreamData),
      is_video_file path = true → needs_conversion path probe = true) ∧
    (∀ path : String, needs_conversion path none = true) := by
  refine ⟨?_, ?_, ?_, ?_⟩
  · intro path info h hs hc
    have hv : is_video_file path = false := by
      unfold is_video_file; rw [h]; decide
    simp [needs_conversion, hv, h, hs, hc, AUDIO_SAMPLE_RATE, AUDIO_CHANNELS]
  · intro path info h hs hc
    have hv : is_video_file path = false := by
      unfold is_video_file; rw [h]; decide
    simp [needs_conversion, hv, h, hs, hc, AUDIO_SAMPLE_RATE, AUDIO_CHANNELS]
  · intro path probe h
    simp [needs_conversion, h]
  · intro path
    unfold needs_conversion
    split
    · rfl
    · split
      · rfl
      · rfl

/-- C8 witness. -/
theorem C8_needs_conversion_cases_witness :
    needs_conversion "talk.WAV" (some ⟨some 16000, some 1⟩) = false ∧
    needs_conversion "talk.wav" (some ⟨some 44100, some 2⟩) = true ∧
    needs_conversion "clip.mp4" (some ⟨some 16000, some 1⟩) = true ∧
    needs_conversion "talk.wav" none = true :=
  ⟨C8_needs_conversion_cases.1 "talk.WAV" ⟨some 16000, some 1⟩ (by decide) rfl rfl,
   C8_needs_conversion_cases.2.1 "talk.wav" ⟨some 44100, some 2⟩ (by decide) rfl rfl,
   C8_needs_conversion_cases.2.2.1 "clip.mp4" (some ⟨some 16000, some 1⟩) (by decide),
   C8_needs_conversion_cases.2.2.2 "talk.wav"⟩

/-! ## Claim C9 -/

/-- C9: for both providers, transcribe on a path that does not exist fails
with the file-not-found error with zero network calls to the backend,
whatever the backend would have answered. -/
theorem C9_missing_file_no_network :
    (∀ (audioPath : String) (language : Option String)
      (backend : GroqRequest → Except PyExn GroqResponse),
      groq_transcribe false audioPath language backend =
        ⟨0, Except.error (PyExn.fileNotFoundError audioPath)⟩) ∧
    (∀ (audioPath : String) (language : Option String)
      (backend : DeepgramOptions → Except DeepgramBackendError DeepgramResponse),
      deepgram_transcribe false audioPath language backend =
        ⟨0, Except.error (PyExn.fileNotFoundError audioPath)⟩) :=
  ⟨fun _ _ _ => rfl, fun _ _ _ => rfl⟩

/-! ## Claim C10 -/

/-- C10: the Deepgram except-handler classifies a backend ApiError by status
into four distinct raised errors — 401 to the invalid-key error, 429 to the
rate-limit error, any status of at least 500 to the server error, anything
else to the generic error carrying the backend's message body — and the
failing transcribe call made exactly one backend call, with no retry. -/
theorem C10_status_classification :
    (∀ body, handleApiError 401 body = DeepgramApiFailure.invalidApiKey) ∧
    (∀ body, handleApiError 429 body = DeepgramApiFailure.rateLimitExceeded) ∧
    (∀ status body, 500 ≤ status →
      handleApiError status body = DeepgramApiFailure.serverError status) ∧
    (∀ status body, status ≠ 401 → status ≠ 429 → status < 500 →
      handleApiError status body = DeepgramApiFailure.apiError body) ∧
    (∀ (audioPath : String) (language : Option String) (e : DeepgramBackendError),
      deepgram_transcribe true audioPath language (fun _ => Except.error e) =
        ⟨1, Except.error (PyExn.valueError
          (deepgramErrorMessage (handleApiError e.status_code e.body)))⟩) := by
  refine ⟨fun _ => rfl, fun _ => rfl, ?_, ?_, fun _ _ _ => rfl⟩
  · intro s b h
    unfold handleApiError
    rw [if_neg (by omega), if_neg (by omega), if_pos h]
  · intro s b h1 h2 h3
    unfold handleApiError
    rw [if_neg h1, if_neg h2, if_neg (by omega)]

/-- C10 witness. -/
theorem C10_status_classification_witness :
    handleApiError 401 "x" = DeepgramApiFailure.invalidApiKey ∧
    handleApiError 503 "y" = DeepgramApiFailure.serverError 503 ∧
    handleApiError 404 "z" = DeepgramApiFailure.apiError "z" :=
  ⟨C10_status_classification.1 "x",
   C10_status_classification.2.2.1 503 "y" (by omega),
   C10_status_classification.2.2.2.1 404 "z" (by decide) (by decide) (by omega)⟩

/-! ## Helper lemmas about the environment merge of config.py -/

/-- Appending an entry with a different key does not change a lookup. -/
theorem lookupKey_append_other (k k' v' : String) (env : List (String × String))
    (h : k' ≠ k) : lookupKey k (env ++ [(k', v')]) = lookupKey k env := by
  induction env with
  | nil => simp [lookupKey, h]
  | cons e rest ih =>
    cases e with
    | mk a b =>
      by_cases hak : a = k
      · simp [lookupKey, hak]
      · simp [lookupKey, hak, ih]

/-- Appending an entry for an absent key makes the lookup find it. -/
theorem lookupKey_append_self (k v : String) (env : List (String × String))
    (h : lookupKey k env = none) : lookupKey k (env ++ [(k, v)]) = some v := by
  induction env with
  | nil => simp [lookupKey]
  | cons e rest ih =>
    cases e with
    | mk a b =>
      by_cases hak : a = k
      · rw [lookupKey] at h
        simp [hak] at h
      · rw [lookupKey] at h
        simp only [hak, if_false] at h
        simp [lookupKey, hak, ih h]

/-- The config-file merge never overrides a key already present in the
environment: its value survives the merge unchanged. -/
theorem lookupKey_merge_of_some {k v : String} (env : List (String × String))
    (lines : List String) (h : lookupKey k env = some v) :
    lookupKey k (mergeConfigFile env lines) = some v := by
  induction lines generalizing env with
  | nil => simpa [mergeConfigFile] using h
  | cons line rest ih =>
    unfold mergeConfigFile
    cases hp : parseConfigLine line with
    | none => exact ih env h
    | some kv =>
      cases kv with
      | mk k' v' =>
        by_cases hk : (lookupKey k' env).isSome
        · simp only [hk, if_true]
          exact ih env h
        · simp only [hk, if_false]
          apply ih
          by_cases hk'k : k' = k
          · subst hk'k
            rw [h] at hk
            simp at hk
          · rw [lookupKey_append_other k k' v' env hk'k]
            exact h

/-- For a key absent from the environment, the merged environment holds the
value of the first parseable config-file line with that key, if any. -/
theorem lookupKey_merge_of_none {k : String} (env : List (String × String))
    (lines : List String) (h : lookupKey k env = none) :
    lookupKey k (mergeConfigFile env lines) = firstFileValue k lines := by
  induction lines generalizing env with
  | nil => simpa [mergeConfigFile, firstFileValue] using h
  | cons line rest ih =>
    unfold mergeConfigFile firstFileValue
    cases hp : parseConfigLine line with
    | none => exact ih env h
    | some kv =>
      cases kv with
      | mk k' v' =>
        by_cases hk'k : k' = k
        · subst hk'k
          have hk : (lookupKey k' env).isSome = false := by rw [h]; rfl
          simp only [hk, if_false, if_pos rfl, Bool.false_eq_true]
          exact lookupKey_merge_of_some (env ++ [(k', v')]) rest
            (lookupKey_append_self k' v' env h)
        · by_cases hk : (lookupKey k' env).isSome
          · simp only [hk, if_true, hk'k, if_false]
            exact ih env h
          · simp only [hk, if_false, hk'k, Bool.false_eq_true]
            apply ih
            rw [lookupKey_append_other k k' v' env hk'k]
            exact h

/-! ## Claim C6 -/

/-- C6 counterexample: with the key present both in the environment and in the
persisted config file, the resolved api key is the environment's value, not
the config file's — config.py explicitly refuses to override environment
variables when loading the file. -/
theorem C6_env_beats_file :
    providerApiKey none [("GROQ_API_KEY", "env-key")] ["GROQ_API_KEY=file-key"]
      "GROQ_API_KEY" = "env-key" ∧ ("env-key" : String) ≠ "file-key" := by
  constructor <;> decide

/-- C6 amended: the api-key precedence is explicit truthy constructor
override, then environment variable, then persisted config file, then absent
(empty key, provider not configured); in particular a key present in both the
environment and the config file resolves to the environment's value. -/
theorem C6_key_precedence :
    (∀ (env : List (String × String)) (lines : List String) (k s : String),
      s ≠ "" → providerApiKey (some s) env lines k = s) ∧
    (∀ (env : List (String × String)) (lines : List String) (k v : String),
      lookupKey k env = some v → providerApiKey none env lines k = v) ∧
    (∀ (env : List (String × String)) (lines : List String) (k : String),
      lookupKey k env = none →
      providerApiKey none env lines k = (firstFileValue k lines).getD "") ∧
    (∀ (env : List (String × String)) (lines : List String) (k : String),
      lookupKey k env = none → firstFileValue k lines = none →
      providerApiKey none env lines k = "" ∧
      is_configured (providerApiKey none env lines k) = false) := by
  have base : ∀ (env : List (String × String)) (lines : List String) (k : String),
      providerApiKey none env lines k = (lookupKey k (mergeConfigFile env lines)).getD "" := by
    intro env lines k
    rfl
  refine ⟨?_, ?_, ?_, ?_⟩
  · intro env lines k s h
    simp [providerApiKey, pyOr, h]
  · intro env lines k v h
    rw [base, lookupKey_merge_of_some env lines h]
    rfl
  · intro env lines k h
    rw [base, lookupKey_merge_of_none env lines h]
  · intro env lines k h hf
    have he : providerApiKey none env lines k = "" := by
      rw [base, lookupKey_merge_of_none env lines h, hf]
      rfl
    exact ⟨he, by rw [he]; decide⟩

/-- C6 witness. -/
theorem C6_key_precedence_witness :
    providerApiKey (some "override-key") [("GROQ_API_KEY", "env-key")]
      ["GROQ_API_KEY=file-key"] "GROQ_API_KEY" = "override-key" ∧
    providerApiKey none [] ["GROQ_API_KEY=file-key"] "GROQ_API_KEY" = "file-key" ∧
    is_configured (providerApiKey none [] [] "GROQ_API_KEY") = false :=
  ⟨C6_key_precedence.1 _ _ _ "override-key" (by decide),
   by rw [C6_key_precedence.2.2.1 [] ["GROQ_API_KEY=file-key"] "GROQ_API_KEY" rfl]; decide,
   (C6_key_precedence.2.2.2 [] [] "GROQ_API_KEY" rfl rfl).2⟩

/-! ## Character-class lemmas for the slugify proofs -/

/-- Valid code points below the surrogate range round-trip through
Char.ofNat. -/
theorem toNat_charOfNat {n : Nat} (h : n < 55296) : (Char.ofNat n).toNat = n := by
  unfold Char.ofNat
  rw [dif_pos (Or.inl h : n.isValidChar)]
  rfl

/-- On a non-upper-case character pyLower is the identity. -/
theorem pyLower_of_not_upper {c : Char} (h : isAsciiUpper c = false) : pyLower c = c := by
  unfold pyLower
  rw [h]
  rfl

/-- On an upper-case ASCII letter pyLower adds 32 to the code point. -/
theorem pyLower_toNat_of_upper {c : Char} (h : isAsciiUpper c = true) :
    (pyLower c).toNat = c.toNat + 32 := by
  have hr : 65 ≤ c.toNat ∧ c.toNat ≤ 90 := by simpa [isAsciiUpper] using h
  unfold pyLower
  rw [h]
  simp only [if_true]
  exact toNat_charOfNat (by omega)

/-- pyLower maps a character to the hyphen exactly when it is the hyphen. -/
theorem pyLower_eq_hy_iff {c : Char} : pyLower c = '-' ↔ c = '-' := by
  constructor
  · intro h
    by_cases hu : isAsciiUpper c = true
    · exfalso
      have h45 : (pyLower c).toNat = 45 := by rw [h]; decide
      have h32 : (pyLower c).toNat = c.toNat + 32 := pyLower_toNat_of_upper hu
      have hr : 65 ≤ c.toNat ∧ c.toNat ≤ 90 := by simpa [isAsciiUpper] using hu
      omega
    · rw [pyLower_of_not_upper (by simpa using hu)] at h
      exact h
  · intro h
    subst h
    decide

/-- Code-point description of a finished slug character. -/
theorem lowerSlugChar_codes {c : Char} (h : lowerSlugChar c = true) :
    (97 ≤ c.toNat ∧ c.toNat ≤ 122) ∨ (48 ≤ c.toNat ∧ c.toNat ≤ 57) ∨ c.toNat = 45 := by
  simp only [lowerSlugChar, isLowerAlnum, isAsciiLower, isAsciiDigit, Bool.or_eq_true,
    decide_eq_true_eq] at h
  rcases h with (h | h) | h
  · exact Or.inl h
  · exact Or.inr (Or.inl h)
  · exact Or.inr (Or.inr (by rw [h]; decide))

/-- Code-point description of an ASCII alphanumeric character. -/
theorem isAsciiAlnum_codes {c : Char} (h : isAsciiAlnum c = true) :
    (65 ≤ c.toNat ∧ c.toNat ≤ 90) ∨ (97 ≤ c.toNat ∧ c.toNat ≤ 122) ∨
      (48 ≤ c.toNat ∧ c.toNat ≤ 57) := by
  simp [isAsciiAlnum, isAsciiUpper, isAsciiLower, isAsciiDigit] at h
  tauto

/-- A whitespace character's code point is in the explicit list of the class. -/
theorem isPySpace_codes {c : Char} (h : isPySpace c = true) :
    c.toNat = 32 ∨ c.toNat = 9 ∨ c.toNat = 10 ∨ c.toNat = 11 ∨ c.toNat = 12 ∨
    c.toNat = 13 ∨ c.toNat = 28 ∨ c.toNat = 29 ∨ c.toNat = 30 ∨ c.toNat = 31 ∨
    c.toNat = 133 ∨ c.toNat = 160 ∨ c.toNat = 5760 ∨
    (8192 ≤ c.toNat ∧ c.toNat ≤ 8202) ∨ c.toNat = 8232 ∨ c.toNat = 8233 ∨
    c.toNat = 8239 ∨ c.toNat = 8287 ∨ c.toNat = 12288 := by
  simp [isPySpace] at h
  tauto

/-- A finished slug character is neither whitespace nor an underscore. -/
theorem spaceOrUnd_eq_false_of_lowerSlug {c : Char} (h : lowerSlugChar c = true) :
    spaceOrUnd c = false := by
  have hc := lowerSlugChar_codes h
  have hsp : isPySpace c = false := by
    by_contra hby
    have := isPySpace_codes (by simpa using hby)
    omega
  have hund : ¬(c = '_') := by
    intro he
    have : c.toNat = 95 := by rw [he]; decide
    omega
  simp [spaceOrUnd, hsp, hund]

/-- A finished slug character is kept by the first substitution. -/
theorem keepChar_of_lowerSlug {c : Char} (h : lowerSlugChar c = true) :
    keepChar c = true := by
  simp only [lowerSlugChar, isLowerAlnum, Bool.or_eq_true] at h
  simp only [keepChar, isAsciiAlnum, Bool.or_eq_true]
  tauto

/-- pyLower fixes every finished slug character. -/
theorem pyLower_fix_of_lowerSlug {c : Char} (h : lowerSlugChar c = true) :
    pyLower c = c := by
  have hc := lowerSlugChar_codes h
  have hu : isAsciiUpper c = false := by
    simp only [isAsciiUpper, decide_eq_false_iff_not]
    omega
  exact pyLower_of_not_upper hu

/-- pyLower maps slug characters into finished slug characters. -/
theorem lowerSlug_pyLower_of_slugCharA {c : Char} (h : slugCharA c = true) :
    lowerSlugChar (pyLower c) = true := by
  simp only [slugCharA, Bool.or_eq_true, decide_eq_true_eq] at h
  rcases h with h | h
  · by_cases hu : isAsciiUpper c = true
    · have hr : 65 ≤ c.toNat ∧ c.toNat ≤ 90 := by simpa [isAsciiUpper] using hu
      have h32 := pyLower_toNat_of_upper hu
      simp only [lowerSlugChar, isLowerAlnum, isAsciiLower, isAsciiDigit, Bool.or_eq_true,
        decide_eq_true_eq]
      omega
    · rw [pyLower_of_not_upper (by simpa using hu)]
      have hcodes := isAsciiAlnum_codes h
      have hnu : ¬(65 ≤ c.toNat ∧ c.toNat ≤ 90) := by
        simpa [isAsciiUpper] using hu
      simp only [lowerSlugChar, isLowerAlnum, isAsciiLower, isAsciiDigit, Bool.or_eq_true,
        decide_eq_true_eq]
      omega
  · subst h
    decide

/-- An ASCII alphanumeric character is neither whitespace nor an underscore. -/
theorem spaceOrUnd_eq_false_of_alnum {c : Char} (h : isAsciiAlnum c = true) :
    spaceOrUnd c = false := by
  have hc := isAsciiAlnum_codes h
  have hsp : isPySpace c = false := by
    by_contra hby
    have := isPySpace_codes (by simpa using hby)
    omega
  have hund : ¬(c = '_') := by
    intro he
    have : c.toNat = 95 := by rw [he]; decide
    omega
  simp [spaceOrUnd, hsp, hund]

/-- An ASCII alphanumeric character is not the hyphen. -/
theorem hyChar_eq_false_of_alnum {c : Char} (h : isAsciiAlnum c = true) :
    hyChar c = false := by
  have hc := isAsciiAlnum_codes h
  have : ¬(c = '-') := by
    intro he
    have : c.toNat = 45 := by rw [he]; decide
    omega
  simp [hyChar, this]

/-! ## Lemmas about the run substitution -/

/-- Every character of the output of the run substitution is the replacement
character or a non-matching character of the input. -/
theorem mem_subRunsAux {p : Char → Bool} {r : Char} :
    ∀ (b : Bool) (l : List Char) (c : Char), c ∈ subRunsAux p r b l →
      c = r ∨ (p c = false ∧ c ∈ l) := by
  intro b l
  induction l generalizing b with
  | nil => intro c hc; simp [subRunsAux] at hc
  | cons a t ih =>
    intro c hc
    simp only [subRunsAux] at hc
    by_cases hp : p a
    · rw [if_pos hp] at hc
      cases b with
      | true =>
        rcases ih true c hc with h | ⟨h1, h2⟩
        · exact Or.inl h
        · exact Or.inr ⟨h1, List.mem_cons_of_mem a h2⟩
      | false =>
        rcases List.mem_cons.mp hc with h | h
        · exact Or.inl h
        · rcases ih true c h with h | ⟨h1, h2⟩
          · exact Or.inl h
          · exact Or.inr ⟨h1, List.mem_cons_of_mem a h2⟩
    · rw [if_neg hp] at hc
      rcases List.mem_cons.mp hc with h | h
      · subst h
        exact Or.inr ⟨by simpa using hp, List.mem_cons_self _ _⟩
      · rcases ih false c h with h | ⟨h1, h2⟩
        · exact Or.inl h
        · exact Or.inr ⟨h1, List.mem_cons_of_mem a h2⟩

/-- A non-matching input character survives the run substitution. -/
theorem mem_subRunsAux_of_mem {p : Char → Bool} {r : Char} :
    ∀ (b : Bool) (l : List Char) (c : Char), c ∈ l → p c = false →
      c ∈ subRunsAux p r b l := by
  intro b l
  induction l generalizing b with
  | nil => intro c hc; simp at hc
  | cons a t ih =>
    intro c hc hpc
    simp only [subRunsAux]
    rcases List.mem_cons.mp hc with h | h
    · subst h
      rw [if_neg (by simp [hpc])]
      exact List.mem_cons_self c _
    · by_cases hp : p a
      · rw [if_pos hp]
        cases b with
        | true => exact ih true c h hpc
        | false => exact List.mem_cons_of_mem r (ih true c h hpc)
      · rw [if_neg hp]
        exact List.mem_cons_of_mem a (ih false c h hpc)

/-- The run substitution is the identity when no character matches. -/
theorem subRunsAux_id_of_no_p {p : Char → Bool} {r : Char} :
    ∀ l : List Char, (∀ c ∈ l, p c = false) → subRunsAux p r false l = l := by
  intro l
  induction l with
  | nil => intro _; rfl
  | cons a t ih =>
    intro h
    simp only [subRunsAux]
    rw [if_neg (by simp [h a (List.mem_cons_self a t)])]
    rw [ih (fun c hc => h c (List.mem_cons_of_mem a hc))]

/-- If every input character matches, the substitution in-run state yields
the empty output. -/
theorem subRunsAux_true_all_p {p : Char → Bool} {r : Char} :
    ∀ l : List Char, (∀ c ∈ l, p c = true) → subRunsAux p r true l = [] := by
  intro l
  induction l with
  | nil => intro _; rfl
  | cons a t ih =>
    intro h
    simp only [subRunsAux]
    rw [if_pos (h a (List.mem_cons_self a t))]
    exact ih fun c hc => h c (List.mem_cons_of_mem a hc)

/-- If every character of a nonempty input matches, the substitution yields
the single replacement character. -/
theorem subRunsAux_false_all_p {p : Char → Bool} {r : Char} :
    ∀ l : List Char, (∀ c ∈ l, p c = true) → l ≠ [] → subRunsAux p r false l = [r] := by
  intro l
  cases l with
  | nil => intro _ h; exact absurd rfl h
  | cons a t =>
    intro h _
    simp only [subRunsAux]
    rw [if_pos (h a (List.mem_cons_self a t))]
    rw [subRunsAux_true_all_p t fun c hc => h c (List.mem_cons_of_mem a hc)]
    rfl

/-! ## Lemmas about the hyphen-adjacency and end predicates -/

/-- Unfolding of the adjacency predicate on two explicit heads. -/
theorem noAdjHy_cons_cons_iff {c d : Char} {l : List Char} :
    noAdjHy (c :: d :: l) = true ↔ ¬(c = '-' ∧ d = '-') ∧ noAdjHy (d :: l) = true := by
  simp [noAdjHy]
  tauto

/-- The adjacency predicate restricts to the tail. -/
theorem noAdjHy_tail {c : Char} {l : List Char} (h : noAdjHy (c :: l) = true) :
    noAdjHy l = true := by
  cases l with
  | nil => rfl
  | cons d t => exact (noAdjHy_cons_cons_iff.mp h).2

/-- A list whose head is not a hyphen may receive any new head. -/
theorem noAdjHy_cons_of_headNot {c : Char} {t : List Char} (hh : headNotHy t = true)
    (ht : noAdjHy t = true) : noAdjHy (c :: t) = true := by
  cases t with
  | nil => rfl
  | cons d s =>
    have hd : ¬(d = '-') := by simpa [headNotHy] using hh
    exact noAdjHy_cons_cons_iff.mpr ⟨fun hcd => hd hcd.2, ht⟩

/-- A non-hyphen head preserves the adjacency predicate. -/
theorem noAdjHy_cons_of_ne {c : Char} {t : List Char} (hc : ¬(c = '-'))
    (ht : noAdjHy t = true) : noAdjHy (c :: t) = true := by
  cases t with
  | nil => rfl
  | cons d s => exact noAdjHy_cons_cons_iff.mpr ⟨fun hcd => hc hcd.1, ht⟩

/-- After a hyphen, the adjacency predicate forces a non-hyphen next head. -/
theorem headNotHy_of_noAdj_hy {c : Char} {cs : List Char}
    (h : noAdjHy (c :: cs) = true) (hc : c = '-') : headNotHy cs = true := by
  cases cs with
  | nil => rfl
  | cons d t =>
    have := (noAdjHy_cons_cons_iff.mp h).1
    simp only [headNotHy, Bool.not_eq_true', decide_eq_false_iff_not]
    intro hd
    exact this ⟨hc, hd⟩

/-- The last-element predicate restricts to a nonempty tail. -/
theorem lastNotHy_tail {c : Char} {l : List Char} (h : lastNotHy (c :: l) = true) :
    lastNotHy l = true := by
  cases l with
  | nil => rfl
  | cons d t => exact h

/-- The in-run substitution for hyphens never emits a leading hyphen. -/
theorem headNotHy_subRunsAux_true :
    ∀ l : List Char, headNotHy (subRunsAux hyChar '-' true l) = true := by
  intro l
  induction l with
  | nil => rfl
  | cons a t ih =>
    simp only [subRunsAux]
    by_cases hp : hyChar a
    · rw [if_pos hp]
      simpa using ih
    · rw [if_neg hp]
      simp only [headNotHy, Bool.not_eq_true', decide_eq_false_iff_not]
      simpa [hyChar] using hp

/-- The hyphen-run substitution never leaves two adjacent hyphens. -/
theorem noAdjHy_subRunsAux :
    ∀ (b : Bool) (l : List Char), noAdjHy (subRunsAux hyChar '-' b l) = true := by
  intro b l
  induction l generalizing b with
  | nil => rfl
  | cons a t ih =>
    simp only [subRunsAux]
    by_cases hp : hyChar a
    · rw [if_pos hp]
      cases b with
      | true => exact ih true
      | false =>
        simp only [Bool.false_eq_true, if_false]
        exact noAdjHy_cons_of_headNot (headNotHy_subRunsAux_true t) (ih true)
    · rw [if_neg hp]
      exact noAdjHy_cons_of_ne (by simpa [hyChar] using hp) (ih false)

/-- Starting in-run and out-of-run agree on a list with a non-hyphen head. -/
theorem subRunsAux_true_eq_false_of_headNot {l : List Char} (h : headNotHy l = true) :
    subRunsAux hyChar '-' true l = subRunsAux hyChar '-' false l := by
  cases l with
  | nil => rfl
  | cons a t =>
    have ha : ¬(a = '-') := by simpa [headNotHy] using h
    simp only [subRunsAux]
    rw [if_neg (by simpa [hyChar] using ha), if_neg (by simpa [hyChar] using ha)]

/-- The hyphen-run substitution is the identity on lists without adjacent
hyphens. -/
theorem subRunsAux_hy_id : ∀ l : List Char, noAdjHy l = true →
    subRunsAux hyChar '-' false l = l := by
  intro l
  induction l with
  | nil => intro _; rfl
  | cons a t ih =>
    intro h
    simp only [subRunsAux]
    by_cases hp : hyChar a
    · rw [if_pos hp]
      have ha : a = '-' := by simpa [hyChar] using hp
      have hh := headNotHy_of_noAdj_hy h ha
      simp only [Bool.false_eq_true, if_false]
      rw [subRunsAux_true_eq_false_of_headNot hh, ih (noAdjHy_tail h), ha]
    · rw [if_neg hp]
      rw [ih (noAdjHy_tail h)]

/-! ## Lemmas about dropWhile on the leading hyphen run -/

/-- Dropping the leading hyphen run leaves no leading hyphen. -/
theorem headNotHy_dropWhile :
    ∀ l : List Char, headNotHy (l.dropWhile (fun c => decide (c = '-'))) = true := by
  intro l
  induction l with
  | nil => rfl
  | cons a t ih =>
    rw [List.dropWhile_cons]
    by_cases ha : a = '-'
    · simpa [ha] using ih
    · simp [ha, headNotHy]

/-- dropWhile preserves the adjacency predicate. -/
theorem noAdjHy_dropWhile (p : Char → Bool) :
    ∀ l : List Char, noAdjHy l = true → noAdjHy (l.dropWhile p) = true := by
  intro l
  induction l with
  | nil => intro _; rfl
  | cons a t ih =>
    intro h
    rw [List.dropWhile_cons]
    by_cases ha : p a
    · simpa [ha] using ih (noAdjHy_tail h)
    · simpa [ha] using h

/-- dropWhile preserves the last-element predicate. -/
theorem lastNotHy_dropWhile (p : Char → Bool) :
    ∀ l : List Char, lastNotHy l = true → lastNotHy (l.dropWhile p) = true := by
  intro l
  induction l with
  | nil => intro _; rfl
  | cons a t ih =>
    intro h
    rw [List.dropWhile_cons]
    by_cases ha : p a
    · simpa [ha] using ih (lastNotHy_tail h)
    · simpa [ha] using h

/-- A non-hyphen member survives dropping the leading hyphen run. -/
theorem mem_dropWhile_of_ne :
    ∀ (l : List Char) (c : Char), c ∈ l → ¬(c = '-') →
      c ∈ l.dropWhile (fun x => decide (x = '-')) := by
  intro l
  induction l with
  | nil => intro c hc; simp at hc
  | cons a t ih =>
    intro c hc hne
    rw [List.dropWhile_cons]
    rcases List.mem_cons.mp hc with h | h
    · subst h
      simp [hne]
    · by_cases ha : a = '-'
      · simpa [ha] using ih c h hne
      · simp only [decide_eq_true_eq, ha, if_false]
        exact List.mem_cons_of_mem a h

/-- Dropping the leading hyphen run is the identity when there is none. -/
theorem dropWhile_id_of_headNot {l : List Char} (h : headNotHy l = true) :
    l.dropWhile (fun c => decide (c = '-')) = l := by
  cases l with
  | nil => rfl
  | cons a t =>
    have ha : ¬(a = '-') := by simpa [headNotHy] using h
    rw [List.dropWhile_cons]
    simp [ha]

/-! ## Lemmas about dropTrailing -/

/-- dropTrailing only removes elements. -/
theorem mem_dropTrailing {r : Char} :
    ∀ (l : List Char) (c : Char), c ∈ dropTrailing r l → c ∈ l := by
  intro l
  induction l with
  | nil => intro c hc; simp [dropTrailing] at hc
  | cons a t ih =>
    intro c hc
    simp only [dropTrailing] at hc
    cases hd : dropTrailing r t with
    | nil =>
      rw [hd] at hc
      by_cases ha : a = r
      · rw [if_pos ha] at hc
        simp at hc
      · rw [if_neg ha] at hc
        simp only [List.mem_singleton] at hc
        subst hc
        exact List.mem_cons_self _ _
    | cons d ds =>
      rw [hd] at hc
      rcases List.mem_cons.mp hc with h | h
      · subst h
        exact List.mem_cons_self _ _
      · exact List.mem_cons_of_mem a (ih c (hd ▸ h))

/-- dropTrailing keeps the head of its input when the output is nonempty. -/
theorem dropTrailing_head {r : Char} (c : Char) (rest : List Char) :
    dropTrailing r (c :: rest) = [] ∨ ∃ t, dropTrailing r (c :: rest) = c :: t := by
  simp only [dropTrailing]
  cases hd : dropTrailing r rest with
  | nil =>
    by_cases hc : c = r
    · rw [if_pos hc]
      exact Or.inl rfl
    · rw [if_neg hc]
      exact Or.inr ⟨[], rfl⟩
  | cons d ds => exact Or.inr ⟨d :: ds, rfl⟩

/-- dropTrailing preserves the adjacency predicate. -/
theorem noAdjHy_dropTrailing :
    ∀ l : List Char, noAdjHy l = true → noAdjHy (dropTrailing '-' l) = true := by
  intro l
  induction l with
  | nil => intro _; rfl
  | cons a t ih =>
    intro h
    simp only [dropTrailing]
    cases hd : dropTrailing '-' t with
    | nil =>
      by_cases ha : a = '-'
      · rw [if_pos ha]; rfl
      · rw [if_neg ha]; rfl
    | cons d ds =>
      cases t with
      | nil => simp [dropTrailing] at hd
      | cons e es =>
        rcases dropTrailing_head e es with h0 | ⟨t0, h0⟩
        · rw [h0] at hd; exact absurd hd (by simp)
        · have heq : d :: ds = e :: t0 := by rw [← hd, h0]
          injection heq with hde _
          have hpair := (noAdjHy_cons_cons_iff.mp h).1
          have htail : noAdjHy (d :: ds) = true := by
            rw [← hd]
            exact ih (noAdjHy_tail h)
          refine noAdjHy_cons_cons_iff.mpr ⟨?_, htail⟩
          intro hcd
          refine hpair ⟨hcd.1, ?_⟩
          rw [← hde]
          exact hcd.2

/-- dropTrailing leaves no trailing hyphen. -/
theorem lastNotHy_dropTrailing :
    ∀ l : List Char, lastNotHy (dropTrailing '-' l) = true := by
  intro l
  induction l with
  | nil => rfl
  | cons a t ih =>
    simp only [dropTrailing]
    cases hd : dropTrailing '-' t with
    | nil =>
      by_cases ha : a = '-'
      · rw [if_pos ha]; rfl
      · rw [if_neg ha]; simpa [lastNotHy] using ha
    | cons d ds =>
      show lastNotHy (a :: d :: ds) = true
      show lastNotHy (d :: ds) = true
      rw [← hd]
      exact ih

/-- dropTrailing is the identity when there is no trailing hyphen. -/
theorem dropTrailing_id_of_lastNot :
    ∀ l : List Char, lastNotHy l = true → dropTrailing '-' l = l := by
  intro l
  induction l with
  | nil => intro _; rfl
  | cons a t ih =>
    intro h
    simp only [dropTrailing]
    cases t with
    | nil =>
      have ha : ¬(a = '-') := by simpa [lastNotHy] using h
      simp [dropTrailing, ha]
    | cons e es =>
      have ht : dropTrailing '-' (e :: es) = e :: es := ih h
      rw [ht]

/-- A non-hyphen member survives dropTrailing. -/
theorem mem_dropTrailing_of_ne :
    ∀ (l : List Char) (c : Char), c ∈ l → ¬(c = '-') → c ∈ dropTrailing '-' l := by
  intro l
  induction l with
  | nil => intro c hc; simp at hc
  | cons a t ih =>
    intro c hc hne
    simp only [dropTrailing]
    rcases List.mem_cons.mp hc with h | h
    · subst h
      cases hd : dropTrailing '-' t with
      | nil => simp [hne]
      | cons d ds => exact List.mem_cons_self _ _
    · have hmem := ih c h hne
      cases hd : dropTrailing '-' t with
      | nil => rw [hd] at hmem; simp at hmem
      | cons d ds =>
        rw [hd] at hmem
        exact List.mem_cons_of_mem a hmem

/-- dropTrailing preserves the head predicate. -/
theorem headNotHy_dropTrailing {l : List Char} (h : headNotHy l = true) :
    headNotHy (dropTrailing '-' l) = true := by
  cases l with
  | nil => rfl
  | cons a t =>
    rcases dropTrailing_head a t with h0 | ⟨t0, h0⟩
    · rw [h0]; rfl
    · rw [h0]
      simpa [headNotHy] using h

/-! ## Lemmas about the final lower-casing map -/

/-- Mapping pyLower preserves the adjacency predicate. -/
theorem noAdjHy_map_pyLower :
    ∀ l : List Char, noAdjHy l = true → noAdjHy (l.map pyLower) = true := by
  intro l
  induction l with
  | nil => intro _; rfl
  | cons a t ih =>
    intro h
    cases t with
    | nil => rfl
    | cons d ds =>
      have hpair := (noAdjHy_cons_cons_iff.mp h).1
      have htail := ih (noAdjHy_tail h)
      simp only [List.map_cons] at htail ⊢
      refine noAdjHy_cons_cons_iff.mpr ⟨?_, htail⟩
      intro ⟨h1, h2⟩
      exact hpair ⟨pyLower_eq_hy_iff.mp h1, pyLower_eq_hy_iff.mp h2⟩

/-- Mapping pyLower preserves the head predicate. -/
theorem headNotHy_map_pyLower {l : List Char} (h : headNotHy l = true) :
    headNotHy (l.map pyLower) = true := by
  cases l with
  | nil => rfl
  | cons a t =>
    have ha : ¬(a = '-') := by simpa [headNotHy] using h
    simp only [List.map_cons, headNotHy, Bool.not_eq_true', decide_eq_false_iff_not]
    exact fun hc => ha (pyLower_eq_hy_iff.mp hc)

/-- Mapping pyLower preserves the last-element predicate. -/
theorem lastNotHy_map_pyLower :
    ∀ l : List Char, lastNotHy l = true → lastNotHy (l.map pyLower) = true := by
  intro l
  induction l with
  | nil => intro _; rfl
  | cons a t ih =>
    intro h
    cases t with
    | nil =>
      have ha : ¬(a = '-') := by simpa [lastNotHy] using h
      simp only [List.map_cons, List.map_nil, lastNotHy, Bool.not_eq_true',
        decide_eq_false_iff_not]
      exact fun hc => ha (pyLower_eq_hy_iff.mp hc)
    | cons d ds =>
      have htail := ih (lastNotHy_tail h)
      simpa [lastNotHy] using htail

/-- Mapping pyLower is the identity on finished slugs. -/
theorem map_pyLower_id :
    ∀ l : List Char, (∀ c ∈ l, lowerSlugChar c = true) → l.map pyLower = l := by
  intro l
  induction l with
  | nil => intro _; rfl
  | cons a t ih =>
    intro h
    simp only [List.map_cons]
    rw [pyLower_fix_of_lowerSlug (h a (List.mem_cons_self a t)),
      ih fun c hc => h c (List.mem_cons_of_mem a hc)]

/-! ## Structural invariants of slugify's output -/

/-- Every character of the output of the two run substitutions is an ASCII
alphanumeric character or a hyphen. -/
theorem slugCharA_of_mem_subRuns {l : List Char} {c : Char}
    (hc : c ∈ subRuns hyChar '-' (subRuns spaceOrUnd '-' (l.filter keepChar))) :
    slugCharA c = true := by
  rcases mem_subRunsAux false _ c hc with h | ⟨_, hc2⟩
  · subst h; decide
  · rcases mem_subRunsAux false _ c hc2 with h | ⟨hns, hc1⟩
    · subst h; decide
    · have hk : keepChar c = true := (List.mem_filter.mp hc1).2
      simp only [keepChar, Bool.or_eq_true] at hk
      simp only [spaceOrUnd, Bool.or_eq_true, Bool.not_eq_true] at hns
      simp only [slugCharA, Bool.or_eq_true]
      rcases hk with (h | h) | h
      · exact Or.inl h
      · rw [h] at hns; simp at hns
      · exact Or.inr h

/-- The four structural invariants of a finished slug: every character is a
lower-case alphanumeric or a hyphen, no two hyphens are adjacent, and neither
end is a hyphen. -/
theorem slugifyL_invariants (l : List Char) :
    (∀ c ∈ slugifyL l, lowerSlugChar c = true) ∧
    noAdjHy (slugifyL l) = true ∧
    headNotHy (slugifyL l) = true ∧
    lastNotHy (slugifyL l) = true := by
  unfold slugifyL stripEnds
  refine ⟨?_, ?_, ?_, ?_⟩
  · intro c hc
    rcases List.mem_map.mp hc with ⟨c0, hc0, rfl⟩
    have hc3 := mem_dropTrailing _ c0 hc0
    have hc3' := (List.dropWhile_sublist _).subset hc3
    exact lowerSlug_pyLower_of_slugCharA (slugCharA_of_mem_subRuns hc3')
  · exact noAdjHy_map_pyLower _
      (noAdjHy_dropTrailing _ (noAdjHy_dropWhile _ _ (noAdjHy_subRunsAux false _)))
  · exact headNotHy_map_pyLower (headNotHy_dropTrailing (headNotHy_dropWhile _))
  · exact lastNotHy_map_pyLower _ (lastNotHy_dropTrailing _)

/-- slugifyL is idempotent. -/
theorem slugifyL_idem (l : List Char) : slugifyL (slugifyL l) = slugifyL l := by
  obtain ⟨hall, hadj, hhead, hlast⟩ := slugifyL_invariants l
  conv_lhs => rw [slugifyL]
  rw [List.filter_eq_self.mpr (fun c hc => keepChar_of_lowerSlug (hall c hc))]
  rw [show subRuns spaceOrUnd '-' (slugifyL l) = slugifyL l from
    subRunsAux_id_of_no_p _ (fun c hc => spaceOrUnd_eq_false_of_lowerSlug (hall c hc))]
  rw [show subRuns hyChar '-' (slugifyL l) = slugifyL l from subRunsAux_hy_id _ hadj]
  unfold stripEnds
  rw [dropWhile_id_of_headNot hhead, dropTrailing_id_of_lastNot _ hlast]
  exact map_pyLower_id _ hall

/-- Without any ASCII alphanumeric in the input, slugifyL yields nothing. -/
theorem slugifyL_eq_nil_of_no_alnum {l : List Char}
    (h : ∀ c ∈ l, isAsciiAlnum c = false) : slugifyL l = [] := by
  unfold slugifyL
  have h2 : ∀ c ∈ subRuns spaceOrUnd '-' (l.filter keepChar), hyChar c = true := by
    intro c hc
    rcases mem_subRunsAux false _ c hc with hr | ⟨hns, hc1⟩
    · subst hr; decide
    · have hk : keepChar c = true := (List.mem_filter.mp hc1).2
      have hna : isAsciiAlnum c = false := h c (List.mem_filter.mp hc1).1
      simp only [keepChar, Bool.or_eq_true] at hk
      simp only [spaceOrUnd, Bool.or_eq_true, Bool.not_eq_true] at hns
      rcases hk with (hk | hk) | hk
      · rw [hna] at hk; simp at hk
      · rw [hk] at hns; simp at hns
      · simpa [hyChar] using hk
  by_cases hnil : subRuns spaceOrUnd '-' (l.filter keepChar) = []
  · rw [hnil]
    rfl
  · rw [show subRuns hyChar '-' (subRuns spaceOrUnd '-' (l.filter keepChar)) = ['-'] from
      subRunsAux_false_all_p _ h2 hnil]
    rfl

/-- With an ASCII alphanumeric in the input, slugifyL yields something. -/
theorem slugifyL_ne_nil_of_alnum {l : List Char} {c : Char} (hc : c ∈ l)
    (ha : isAsciiAlnum c = true) : slugifyL l ≠ [] := by
  unfold slugifyL stripEnds
  have h1 : c ∈ l.filter keepChar :=
    List.mem_filter.mpr ⟨hc, by simp [keepChar, ha]⟩
  have h2 := @mem_subRunsAux_of_mem spaceOrUnd '-' false (l.filter keepChar) c h1
    (spaceOrUnd_eq_false_of_alnum ha)
  have h3 := @mem_subRunsAux_of_mem hyChar '-' false
    (subRunsAux spaceOrUnd '-' false (l.filter keepChar)) c h2 (hyChar_eq_false_of_alnum ha)
  have hne : ¬(c = '-') := by
    have := hyChar_eq_false_of_alnum ha
    simpa [hyChar] using this
  have h4 := mem_dropWhile_of_ne _ c h3 hne
  have h5 := mem_dropTrailing_of_ne _ c h4 hne
  exact List.ne_nil_of_mem (List.mem_map.mpr ⟨c, h5, rfl⟩)

/-- A list satisfying the slug invariants is accepted by the slug automaton:
out of the expecting state always, and from the expecting state whenever the
head is not a hyphen. -/
theorem matchSlugAux_of_invariants :
    ∀ l : List Char, (∀ c ∈ l, lowerSlugChar c = true) → noAdjHy l = true →
      lastNotHy l = true →
      matchSlugAux false l = true ∧
      (∀ c t, l = c :: t → ¬(c = '-') → matchSlugAux true l = true) := by
  intro l
  induction l with
  | nil =>
    intro _ _ _
    exact ⟨rfl, fun c t h => by simp at h⟩
  | cons a t ih =>
    intro hall hadj hlast
    have hA : lowerSlugChar a = true := hall a (List.mem_cons_self a t)
    have htail := ih (fun c hc => hall c (List.mem_cons_of_mem a hc))
      (noAdjHy_tail hadj) (lastNotHy_tail hlast)
    simp only [lowerSlugChar, Bool.or_eq_true, decide_eq_true_eq] at hA
    rcases hA with hla | hhy
    · constructor
      · simp only [matchSlugAux, hla, if_true]
        exact htail.1
      · intro c t' _ _
        simp only [matchSlugAux, hla, if_true]
        exact htail.1
    · have hlaF : isLowerAlnum a = false := by
        rw [hhy]; decide
      constructor
      · cases t with
        | nil =>
          exfalso
          rw [hhy] at hlast
          simp [lastNotHy] at hlast
        | cons b bs =>
          have hb : ¬(b = '-') := by
            have := headNotHy_of_noAdj_hy hadj hhy
            simpa [headNotHy] using this
          simp only [matchSlugAux, hlaF, Bool.false_eq_true, if_false, hhy, if_true]
          exact htail.2 b bs rfl hb
      · intro c t' heq hc
        exfalso
        injection heq with h1 _
        exact hc (h1 ▸ hhy)

/-! ## Claim C4 -/

/-- C4: slugify is idempotent on every input string, and its output matches
the anchored regular expression of lower-case alphanumeric segments separated
by single hyphens whenever the input contains an ASCII alphanumeric, and is
the empty string when it does not. -/
theorem C4_slugify_idempotent_and_shape (x : String) :
    slugify (slugify x) = slugify x ∧
    (hasAsciiAlnum x = true → matchSlugStr (slugify x) = true) ∧
    (hasAsciiAlnum x = false → slugify x = "") := by
  refine ⟨?_, ?_, ?_⟩
  · show (slugifyL (slugifyL x.toList)).asString = (slugifyL x.toList).asString
    rw [slugifyL_idem]
  · intro h
    rcases List.any_eq_true.mp h with ⟨c, hc, ha⟩
    obtain ⟨hall, hadj, hhead, hlast⟩ := slugifyL_invariants x.toList
    have hne := slugifyL_ne_nil_of_alnum hc ha
    show matchSlugAux true (slugifyL x.toList) = true
    cases hl : slugifyL x.toList with
    | nil => exact absurd hl hne
    | cons a t =>
      have hha : ¬(a = '-') := by
        rw [hl] at hhead
        simpa [headNotHy] using hhead
      exact hl ▸ (matchSlugAux_of_invariants _ hall hadj hlast).2 a t hl hha
  · intro h
    have h' : x.toList.any isAsciiAlnum = false := h
    have hno : ∀ c ∈ x.toList, isAsciiAlnum c = false := by
      intro c hc
      simpa using List.any_eq_false.mp h' c hc
    show (slugifyL x.toList).asString = ""
    rw [slugifyL_eq_nil_of_no_alnum hno]
    rfl

/-- C4 witness. -/
theorem C4_slugify_idempotent_and_shape_witness :
    matchSlugStr (slugify "My Video") = true ∧ slugify "***" = "" :=
  ⟨(C4_slugify_idempotent_and_shape "My Video").2.1 (by decide),
   (C4_slugify_idempotent_and_shape "***").2.2 (by decide)⟩

end PiTube
